import Mathlib

/-!
Verification of the kitt chat-client (`src/main.rs`) against its
natural-language specification.

The program is a single linear function `request_chat`:
it builds a fixed `ChatRequest`, reads the bearer token from the
`GPT_API_KEY` environment variable, issues one POST to the
chat-completions endpoint, and deserializes the JSON response body
into a `ChatResponse`.

The embedding below models:
- JSON values (`Json`) at the level of `serde_json` values, with
  integer numerics (every numeric field in the program is `i64`);
- the `serde` derive serializers and deserializers of the four structs,
  with serde's map-visitor semantics: fields may come in any order,
  unknown fields are ignored, a duplicate or ill-typed or missing
  required field is an error;
- the compact rendering `serde_json::to_string` used by
  `reqwest`'s `.json(..)` body builder;
- `request_chat` as a pure function of the process environment
  (a lookup `String → Option String`) and of an HTTP transport
  (a function from the outbound request to a transport-level result).
  The returned list records every request handed to the transport.
-/

namespace Kitt

/-- JSON values, as `serde_json` sees a parsed body.  Numbers are
modelled as integers: every numeric field deserialized by the program
is an `i64`, and `serde` rejects a fractional number there. -/
inductive Json where
  | null : Json
  | bool (b : Bool) : Json
  | num (n : Int) : Json
  | str (s : String) : Json
  | arr (elems : List Json) : Json
  | obj (fields : List (String × Json)) : Json

/-- `ChatMessage` (main.rs lines 14-18): one conversational turn. -/
structure ChatMessage where
  role : String
  content : String
deriving Repr, DecidableEq

/-- `ChatChoice` (main.rs lines 20-25). -/
structure ChatChoice where
  index : Int
  message : ChatMessage
  finish_reason : String
deriving Repr, DecidableEq

/-- `ChatRequest` (main.rs lines 27-31). -/
structure ChatRequest where
  model : String
  messages : List ChatMessage
deriving Repr, DecidableEq

/-- `ChatResponse` (main.rs lines 33-39). -/
structure ChatResponse where
  id : String
  object : String
  created : Int
  choices : List ChatChoice
deriving Repr, DecidableEq

/-- Lowercase hex digit, as in `serde_json`'s escape table. -/
def hexDigit (n : Nat) : Char :=
  if n < 10 then Char.ofNat (48 + n) else Char.ofNat (87 + n)

/-- Escape one character the way `serde_json` does when writing a JSON
string: quote and backslash are escaped, control characters use the
short escapes or `\u00XX`, everything else is written verbatim. -/
def escapeChar (c : Char) : String :=
  if c = '"' then "\\\""
  else if c = '\\' then "\\\\"
  else if c = Char.ofNat 8 then "\\b"
  else if c = Char.ofNat 9 then "\\t"
  else if c = Char.ofNat 10 then "\\n"
  else if c = Char.ofNat 12 then "\\f"
  else if c = Char.ofNat 13 then "\\r"
  else if c.toNat < 32 then
    "\\u00" ++ String.mk [hexDigit (c.toNat / 16), hexDigit (c.toNat % 16)]
  else String.mk [c]

/-- Render a JSON string literal, quotes included. -/
def renderString (s : String) : String :=
  "\"" ++ String.join (s.data.map escapeChar) ++ "\""

mutual

/-- Compact rendering of a JSON value, as `serde_json::to_string`
produces it (no whitespace, fields in the order they are listed). -/
def Json.render : Json → String
  | Json.null => "null"
  | Json.bool true => "true"
  | Json.bool false => "false"
  | Json.num n => toString n
  | Json.str s => renderString s
  | Json.arr elems => "[" ++ renderElems elems ++ "]"
  | Json.obj fields => "\x7b" ++ renderFields fields ++ "\x7d"

/-- Comma-separated rendering of array elements. -/
def renderElems : List Json → String
  | [] => ""
  | [j] => Json.render j
  | j :: rest => Json.render j ++ "," ++ renderElems rest

/-- Comma-separated rendering of object fields. -/
def renderFields : List (String × Json) → String
  | [] => ""
  | [(k, v)] => renderString k ++ ":" ++ Json.render v
  | (k, v) :: rest => renderString k ++ ":" ++ Json.render v ++ "," ++ renderFields rest

end

/-- `serde` deserialization of a JSON value into a Rust `String`:
only a JSON string is accepted. -/
def Json.asString : Json → Option String
  | Json.str s => some s
  | _ => none

/-- `serde` deserialization of a JSON value into an `i64`: only a
JSON integer representable in an `i64` is accepted; an integer outside
the `i64` range (or a non-number) is an "invalid value" error. -/
def Json.asInt : Json → Option Int
  | Json.num n => if -(2 ^ 63) ≤ n ∧ n < 2 ^ 63 then some n else none
  | _ => none

/-- `serde` serializer of `ChatMessage` (derive on lines 14-18):
fields in declaration order. -/
def ChatMessage.toJson (m : ChatMessage) : Json :=
  Json.obj [("role", Json.str m.role), ("content", Json.str m.content)]

/-- `serde` serializer of `ChatRequest` (derive on lines 27-31):
fields in declaration order. -/
def ChatRequest.toJson (r : ChatRequest) : Json :=
  Json.obj [("model", Json.str r.model),
            ("messages", Json.arr (r.messages.map ChatMessage.toJson))]

/-- Map visitor of `ChatMessage`'s derived deserializer.  The two
`Option` accumulators hold the fields seen so far: a duplicate field,
an ill-typed value, or a missing required field at the end is an
error; an unknown field is skipped. -/
def ChatMessage.fromFields : List (String × Json) → Option String → Option String → Option ChatMessage
  | [], role, content =>
    match role, content with
    | some r, some c => some { role := r, content := c }
    | _, _ => none
  | (k, v) :: rest, role, content =>
    if k = "role" then
      match role, v with
      | none, Json.str s => ChatMessage.fromFields rest (some s) content
      | _, _ => none
    else if k = "content" then
      match content, v with
      | none, Json.str s => ChatMessage.fromFields rest role (some s)
      | _, _ => none
    else ChatMessage.fromFields rest role content

/-- `serde` deserializer of `ChatMessage` (derive on lines 14-18). -/
def ChatMessage.fromJson : Json → Option ChatMessage
  | Json.obj fields => ChatMessage.fromFields fields none none
  | _ => none

/-- One map-entry step of `ChatChoice`'s derived deserializer: a
known field already seen is a duplicate-field error, an ill-typed
value is an error, an unknown field is skipped; otherwise the
accumulator triple is updated. -/
def ChatChoice.stepField (k : String) (v : Json) (index : Option Int)
    (message : Option ChatMessage) (fin : Option String) :
    Option (Option Int × Option ChatMessage × Option String) :=
  if k = "index" then
    match index with
    | some _ => none
    | none =>
      match Json.asInt v with
      | none => none
      | some n => some (some n, message, fin)
  else if k = "message" then
    match message with
    | some _ => none
    | none =>
      match ChatMessage.fromJson v with
      | none => none
      | some m => some (index, some m, fin)
  else if k = "finish_reason" then
    match fin with
    | some _ => none
    | none =>
      match Json.asString v with
      | none => none
      | some s => some (index, message, some s)
  else some (index, message, fin)

/-- Map visitor of `ChatChoice`'s derived deserializer: fold
`ChatChoice.stepField` over the entries, then require every field. -/
def ChatChoice.fromFields : List (String × Json) → Option Int → Option ChatMessage → Option String → Option ChatChoice
  | [], index, message, fin =>
    match index, message, fin with
    | some i, some m, some f => some { index := i, message := m, finish_reason := f }
    | _, _, _ => none
  | (k, v) :: rest, index, message, fin =>
    match ChatChoice.stepField k v index message fin with
    | none => none
    | some (index2, message2, fin2) => ChatChoice.fromFields rest index2 message2 fin2

/-- `serde` deserializer of `ChatChoice` (derive on lines 20-25). -/
def ChatChoice.fromJson : Json → Option ChatChoice
  | Json.obj fields => ChatChoice.fromFields fields none none none
  | _ => none

/-- Element-wise deserialization of the `choices` sequence
(`Vec<ChatChoice>`): any failing element fails the whole sequence. -/
def decodeChoices : List Json → Option (List ChatChoice)
  | [] => some []
  | j :: rest =>
    match ChatChoice.fromJson j with
    | none => none
    | some c =>
      match decodeChoices rest with
      | none => none
      | some cs => some (c :: cs)

/-- `serde` deserialization of a JSON value into `Vec<ChatChoice>`:
only a JSON array is accepted, decoded element-wise. -/
def Json.asChoices : Json → Option (List ChatChoice)
  | Json.arr elems => decodeChoices elems
  | _ => none

/-- One map-entry step of `ChatResponse`'s derived deserializer:
duplicate known field or ill-typed value is an error, an unknown
field is skipped; otherwise the accumulator tuple is updated. -/
def ChatResponse.stepField (k : String) (v : Json) (id obj : Option String)
    (created : Option Int) (choices : Option (List ChatChoice)) :
    Option (Option String × Option String × Option Int × Option (List ChatChoice)) :=
  if k = "id" then
    match id with
    | some _ => none
    | none =>
      match Json.asString v with
      | none => none
      | some s => some (some s, obj, created, choices)
  else if k = "object" then
    match obj with
    | some _ => none
    | none =>
      match Json.asString v with
      | none => none
      | some s => some (id, some s, created, choices)
  else if k = "created" then
    match created with
    | some _ => none
    | none =>
      match Json.asInt v with
      | none => none
      | some n => some (id, obj, some n, choices)
  else if k = "choices" then
    match choices with
    | some _ => none
    | none =>
      match Json.asChoices v with
      | none => none
      | some cs => some (id, obj, created, some cs)
  else some (id, obj, created, choices)

/-- Map visitor of `ChatResponse`'s derived deserializer: fold
`ChatResponse.stepField` over the entries, then require every field. -/
def ChatResponse.fromFields : List (String × Json) → Option String → Option String → Option Int → Option (List ChatChoice) → Option ChatResponse
  | [], id, obj, created, choices =>
    match id, obj, created, choices with
    | some i, some o, some c, some ch =>
      some { id := i, object := o, created := c, choices := ch }
    | _, _, _, _ => none
  | (k, v) :: rest, id, obj, created, choices =>
    match ChatResponse.stepField k v id obj created choices with
    | none => none
    | some (id2, obj2, created2, choices2) =>
      ChatResponse.fromFields rest id2 obj2 created2 choices2

/-- `serde` deserializer of `ChatResponse` (derive on lines 33-39):
this is what `res.json::<ChatResponse>()` applies to the parsed body. -/
def ChatResponse.fromJson : Json → Option ChatResponse
  | Json.obj fields => ChatResponse.fromFields fields none none none none
  | _ => none

/-- Modelled from the spec: `ChatRequest` derives only `Serialize` in
the source, so the repository contains no deserializer for it; the
spec's round-trip property presumes the deserializer `serde`'s derive
would generate, modelled here with the same map-visitor semantics as
the deserializers above (element-wise decoding of `messages`). -/
def decodeMessages : List Json → Option (List ChatMessage)
  | [] => some []
  | j :: rest =>
    match ChatMessage.fromJson j with
    | none => none
    | some m =>
      match decodeMessages rest with
      | none => none
      | some ms => some (m :: ms)

/-- Modelled from the spec: map visitor of the derived deserializer
`ChatRequest` would have (see `decodeMessages`). -/
def ChatRequest.fromFields : List (String × Json) → Option String → Option (List ChatMessage) → Option ChatRequest
  | [], model, messages =>
    match model, messages with
    | some mo, some ms => some { model := mo, messages := ms }
    | _, _ => none
  | (k, v) :: rest, model, messages =>
    if k = "model" then
      match model, v with
      | none, Json.str s => ChatRequest.fromFields rest (some s) messages
      | _, _ => none
    else if k = "messages" then
      match messages, v with
      | none, Json.arr elems =>
        match decodeMessages elems with
        | none => none
        | some ms => ChatRequest.fromFields rest model (some ms)
      | _, _ => none
    else ChatRequest.fromFields rest model messages

/-- Modelled from the spec: the deserializer `ChatRequest`'s derive
would generate (the struct only derives `Serialize` in the source). -/
def ChatRequest.fromJson : Json → Option ChatRequest
  | Json.obj fields => ChatRequest.fromFields fields none none
  | _ => none

/-- `GPT_COMPLETION_URL` (main.rs line 12). -/
def GPT_COMPLETION_URL : String := "https://api.openai.com/v1/chat/completions"

/-- The spec's three-way error taxonomy (spec section 7).
`ConfigError` models the `unwrap` panic on a missing `GPT_API_KEY`
(the spec's "fatal if absent"); `NetworkError` the `?`-propagated
`send()` failure; `DecodeError` the `?`-propagated `res.json()`
failure.  The spec itself states that in the reference program each
of these terminates the process. -/
inductive ChatError where
  | ConfigError : ChatError
  | NetworkError : ChatError
  | DecodeError : ChatError
deriving Repr, DecidableEq

/-- What the transport does with one outbound request: either the
request cannot be sent at all (connection refused, timeout: the error
arm of `send()`), or a response arrives with a status code and a body.
`body = none` models a body that is not valid JSON at all. -/
inductive HttpResult where
  | failure : HttpResult
  | response (status : Nat) (body : Option Json) : HttpResult

/-- One outbound HTTP request as `request_chat` assembles it:
method, URL, the single `Authorization` header it sets, and the
serialized JSON body that `.json(&chat_req)` attaches. -/
structure HttpRequest where
  method : String
  url : String
  authorization : Option String
  body : String
deriving Repr, DecidableEq

/-- The fixed `ChatRequest` built on every invocation
(main.rs lines 42-48). -/
def chat_req : ChatRequest :=
  { model := "gpt-3.5-turbo",
    messages := [{ role := "user", content := "Hello" }] }

/-- The one request `request_chat` hands to the transport for a token
value `key`: `POST` to `GPT_COMPLETION_URL`, header
`Authorization: Bearer <key>` (main.rs lines 51-55), body the
serialization of `chat_req`. -/
def built_request (key : String) : HttpRequest :=
  { method := "POST",
    url := GPT_COMPLETION_URL,
    authorization := some ("Bearer " ++ key),
    body := Json.render (ChatRequest.toJson chat_req) }

/-- `request_chat` (main.rs lines 41-60) as a pure function of the
process environment and the HTTP transport.  The second component of
the result records every request handed to the transport, in order.
Reading `GPT_API_KEY` happens before any request is built for sending;
a missing variable is the `unwrap` panic, modelled as `ConfigError`. -/
def request_chat (env : String → Option String) (transport : HttpRequest → HttpResult) :
    Except ChatError ChatResponse × List HttpRequest :=
  match env "GPT_API_KEY" with
  | none => (Except.error ChatError.ConfigError, [])
  | some key =>
    let req := built_request key
    match transport req with
    | HttpResult.failure => (Except.error ChatError.NetworkError, [req])
    | HttpResult.response _status body =>
      match body with
      | none => (Except.error ChatError.DecodeError, [req])
      | some j =>
        match ChatResponse.fromJson j with
        | none => (Except.error ChatError.DecodeError, [req])
        | some r => (Except.ok r, [req])

/-- A transport that answers every request the same way (the mocked
endpoint of the spec's testable properties). -/
def mock (r : HttpResult) : HttpRequest → HttpResult := fun _ => r

/-! ## Helper lemmas -/

/-- With a token present, the transport is handed exactly the one
request `built_request key`, whatever it answers. -/
lemma request_chat_issued (env : String → Option String) (t : HttpRequest → HttpResult)
    (key : String) (h : env "GPT_API_KEY" = some key) :
    (request_chat env t).2 = [built_request key] := by
  simp only [request_chat, h]
  cases t (built_request key) with
  | failure => rfl
  | response s body =>
    cases body with
    | none => rfl
    | some j => cases hj : ChatResponse.fromJson j <;> simp [hj]

/-- A transport-level send failure surfaces as `NetworkError`. -/
lemma request_chat_net_fail (env : String → Option String) (t : HttpRequest → HttpResult)
    (key : String) (h : env "GPT_API_KEY" = some key)
    (ht : t (built_request key) = HttpResult.failure) :
    (request_chat env t).1 = Except.error ChatError.NetworkError := by
  simp only [request_chat, h, ht]

/-- A JSON body that does not deserialize surfaces as `DecodeError`. -/
lemma request_chat_decode (env : String → Option String) (t : HttpRequest → HttpResult)
    (key : String) (s : Nat) (j : Json) (h : env "GPT_API_KEY" = some key)
    (ht : t (built_request key) = HttpResult.response s (some j))
    (hj : ChatResponse.fromJson j = none) :
    (request_chat env t).1 = Except.error ChatError.DecodeError := by
  simp only [request_chat, h, ht, hj]

/-- A body that is not JSON at all surfaces as `DecodeError`. -/
lemma request_chat_nonjson (env : String → Option String) (t : HttpRequest → HttpResult)
    (key : String) (s : Nat) (h : env "GPT_API_KEY" = some key)
    (ht : t (built_request key) = HttpResult.response s none) :
    (request_chat env t).1 = Except.error ChatError.DecodeError := by
  simp only [request_chat, h, ht]

/-- A body that deserializes is returned as the success value. -/
lemma request_chat_ok (env : String → Option String) (t : HttpRequest → HttpResult)
    (key : String) (s : Nat) (j : Json) (r : ChatResponse) (h : env "GPT_API_KEY" = some key)
    (ht : t (built_request key) = HttpResult.response s (some j))
    (hj : ChatResponse.fromJson j = some r) :
    (request_chat env t).1 = Except.ok r := by
  simp only [request_chat, h, ht, hj]

/-- `ChatMessage` serialization round-trips through its deserializer. -/
lemma chatMessage_roundtrip (m : ChatMessage) :
    ChatMessage.fromJson (ChatMessage.toJson m) = some m := by
  cases m
  rfl

/-- Element-wise message decoding inverts element-wise serialization. -/
lemma decodeMessages_map (ms : List ChatMessage) :
    decodeMessages (ms.map ChatMessage.toJson) = some ms := by
  induction ms with
  | nil => rfl
  | cons m rest ih => simp [decodeMessages, chatMessage_roundtrip, ih]

/-- `ChatRequest` serialization round-trips through the modelled
derived deserializer. -/
lemma chatRequest_roundtrip (r : ChatRequest) :
    ChatRequest.fromJson (ChatRequest.toJson r) = some r := by
  cases r with
  | mk model messages =>
    simp [ChatRequest.toJson, ChatRequest.fromJson, ChatRequest.fromFields, decodeMessages_map]

/-- A fully-populated choice object whose index fits in an `i64`
deserializes to the corresponding `ChatChoice`. -/
lemma choice_fromJson_shape (idx : Int) (role content fin : String)
    (hidx : Json.asInt (Json.num idx) = some idx) :
    ChatChoice.fromJson (Json.obj
      [("index", Json.num idx),
       ("message", Json.obj [("role", Json.str role), ("content", Json.str content)]),
       ("finish_reason", Json.str fin)]) = some ⟨idx, ⟨role, content⟩, fin⟩ := by
  have hstep : ChatChoice.stepField "index" (Json.num idx) none none none =
      some (some idx, none, none) := by
    show (match Json.asInt (Json.num idx) with
          | none => none
          | some n => some (some n, none, none)) = some (some idx, none, none)
    rw [hidx]
  show (match ChatChoice.stepField "index" (Json.num idx) none none none with
        | none => none
        | some (i2, m2, f2) => ChatChoice.fromFields
          [("message", Json.obj [("role", Json.str role), ("content", Json.str content)]),
           ("finish_reason", Json.str fin)] i2 m2 f2) = some ⟨idx, ⟨role, content⟩, fin⟩
  rw [hstep]
  rfl

/-- Decoding a choices sequence that starts with a fully-populated
choice object decodes the head and the tail independently. -/
lemma decodeChoices_cons_obj (idx : Int) (role content fin : String)
    (rest : List Json) (cs : List ChatChoice)
    (hidx : Json.asInt (Json.num idx) = some idx) (h : decodeChoices rest = some cs) :
    decodeChoices (Json.obj
      [("index", Json.num idx),
       ("message", Json.obj [("role", Json.str role), ("content", Json.str content)]),
       ("finish_reason", Json.str fin)] :: rest) =
      some (⟨idx, ⟨role, content⟩, fin⟩ :: cs) := by
  show (match ChatChoice.fromJson (Json.obj
      [("index", Json.num idx),
       ("message", Json.obj [("role", Json.str role), ("content", Json.str content)]),
       ("finish_reason", Json.str fin)]) with
        | none => none
        | some c =>
          match decodeChoices rest with
          | none => none
          | some cs2 => some (c :: cs2)) =
      some (⟨idx, ⟨role, content⟩, fin⟩ :: cs)
  rw [choice_fromJson_shape idx role content fin hidx, h]

/-- A successful `ChatChoice.stepField` on a key other than a given
required field leaves that field's accumulator unchanged. -/
lemma choice_stepField_preserve (k : String) (v : Json) (index : Option Int)
    (message : Option ChatMessage) (fin : Option String)
    (a : Option Int) (b : Option ChatMessage) (c : Option String)
    (hs : ChatChoice.stepField k v index message fin = some (a, b, c)) :
    (¬ k = "index" → a = index) ∧ (¬ k = "message" → b = message) ∧
    (¬ k = "finish_reason" → c = fin) := by
  by_cases h1 : k = "index"
  · subst h1
    cases index with
    | some x => exact Option.noConfusion hs
    | none =>
      have hs2 : (match Json.asInt v with
                  | none => none
                  | some n => some (some n, message, fin)) = some (a, b, c) := hs
      cases hv : Json.asInt v with
      | none => rw [hv] at hs2; exact Option.noConfusion hs2
      | some n =>
        rw [hv] at hs2
        have hs3 : some ((some n : Option Int), message, fin) = some (a, b, c) := hs2
        cases hs3
        exact ⟨fun h => absurd rfl h, fun _ => rfl, fun _ => rfl⟩
  · by_cases h2 : k = "message"
    · subst h2
      cases message with
      | some x => exact Option.noConfusion hs
      | none =>
        have hs2 : (match ChatMessage.fromJson v with
                    | none => none
                    | some m => some (index, some m, fin)) = some (a, b, c) := hs
        cases hv : ChatMessage.fromJson v with
        | none => rw [hv] at hs2; exact Option.noConfusion hs2
        | some m =>
          rw [hv] at hs2
          have hs3 : some (index, (some m : Option ChatMessage), fin) = some (a, b, c) := hs2
          cases hs3
          exact ⟨fun _ => rfl, fun h => absurd rfl h, fun _ => rfl⟩
    · by_cases h3 : k = "finish_reason"
      · subst h3
        cases fin with
        | some x => exact Option.noConfusion hs
        | none =>
          have hs2 : (match Json.asString v with
                      | none => none
                      | some s => some (index, message, some s)) = some (a, b, c) := hs
          cases hv : Json.asString v with
          | none => rw [hv] at hs2; exact Option.noConfusion hs2
          | some s =>
            rw [hv] at hs2
            have hs3 : some (index, message, (some s : Option String)) = some (a, b, c) := hs2
            cases hs3
            exact ⟨fun _ => rfl, fun _ => rfl, fun h => absurd rfl h⟩
      · have hstep : ChatChoice.stepField k v index message fin =
            some (index, message, fin) := by
          simp only [ChatChoice.stepField, if_neg h1, if_neg h2, if_neg h3]
        rw [hstep] at hs
        have hs3 : some (index, message, fin) = some (a, b, c) := hs
        cases hs3
        exact ⟨fun _ => rfl, fun _ => rfl, fun _ => rfl⟩

/-- A choice object with no "index" entry never deserializes. -/
lemma choice_missing_index :
    ∀ (fs : List (String × Json)) m f, (∀ v, ("index", v) ∉ fs) →
      ChatChoice.fromFields fs none m f = none := by
  intro fs
  induction fs with
  | nil => intro m f _; rfl
  | cons p rest ih =>
    obtain ⟨k, v⟩ := p
    intro m f habs
    have hk : ¬ k = "index" := fun h => habs v (h ▸ List.mem_cons_self _ _)
    have habs2 : ∀ w, ("index", w) ∉ rest := fun w hw => habs w (List.mem_cons_of_mem _ hw)
    show (match ChatChoice.stepField k v none m f with
          | none => none
          | some (i2, m2, f2) => ChatChoice.fromFields rest i2 m2 f2) = none
    cases hs : ChatChoice.stepField k v none m f with
    | none => rfl
    | some acc =>
      obtain ⟨a, b, c⟩ := acc
      have ha : a = none := (choice_stepField_preserve k v none m f a b c hs).1 hk
      subst ha
      exact ih b c habs2

/-- A choice object with no "message" entry never deserializes. -/
lemma choice_missing_message :
    ∀ (fs : List (String × Json)) i f, (∀ v, ("message", v) ∉ fs) →
      ChatChoice.fromFields fs i none f = none := by
  intro fs
  induction fs with
  | nil => intro i f _; cases i <;> rfl
  | cons p rest ih =>
    obtain ⟨k, v⟩ := p
    intro i f habs
    have hk : ¬ k = "message" := fun h => habs v (h ▸ List.mem_cons_self _ _)
    have habs2 : ∀ w, ("message", w) ∉ rest := fun w hw => habs w (List.mem_cons_of_mem _ hw)
    show (match ChatChoice.stepField k v i none f with
          | none => none
          | some (i2, m2, f2) => ChatChoice.fromFields rest i2 m2 f2) = none
    cases hs : ChatChoice.stepField k v i none f with
    | none => rfl
    | some acc =>
      obtain ⟨a, b, c⟩ := acc
      have hb : b = none := (choice_stepField_preserve k v i none f a b c hs).2.1 hk
      subst hb
      exact ih a c habs2

/-- A choice object with no "finish_reason" entry never deserializes. -/
lemma choice_missing_finish :
    ∀ (fs : List (String × Json)) i m, (∀ v, ("finish_reason", v) ∉ fs) →
      ChatChoice.fromFields fs i m none = none := by
  intro fs
  induction fs with
  | nil => intro i m _; cases i <;> cases m <;> rfl
  | cons p rest ih =>
    obtain ⟨k, v⟩ := p
    intro i m habs
    have hk : ¬ k = "finish_reason" := fun h => habs v (h ▸ List.mem_cons_self _ _)
    have habs2 : ∀ w, ("finish_reason", w) ∉ rest :=
      fun w hw => habs w (List.mem_cons_of_mem _ hw)
    show (match ChatChoice.stepField k v i m none with
          | none => none
          | some (i2, m2, f2) => ChatChoice.fromFields rest i2 m2 f2) = none
    cases hs : ChatChoice.stepField k v i m none with
    | none => rfl
    | some acc =>
      obtain ⟨a, b, c⟩ := acc
      have hc : c = none := (choice_stepField_preserve k v i m none a b c hs).2.2 hk
      subst hc
      exact ih a b habs2

/-- A choices sequence containing an element that fails to deserialize
fails as a whole. -/
lemma decodeChoices_elem_none :
    ∀ (l : List Json) j, j ∈ l → ChatChoice.fromJson j = none → decodeChoices l = none := by
  intro l
  induction l with
  | nil => intro j hj _; exact absurd hj (List.not_mem_nil _)
  | cons j0 rest ih =>
    intro j hmem hbad
    show (match ChatChoice.fromJson j0 with
          | none => none
          | some c =>
            match decodeChoices rest with
            | none => none
            | some cs => some (c :: cs)) = none
    rcases List.mem_cons.mp hmem with heq | hrest
    · subst heq
      rw [hbad]
    · cases ChatChoice.fromJson j0 with
      | none => rfl
      | some c => rw [ih j hrest hbad]

/-- A successful `ChatResponse.stepField` on a key other than a given
required field leaves that field's accumulator unchanged. -/
lemma response_stepField_preserve (k : String) (v : Json) (id obj : Option String)
    (created : Option Int) (choices : Option (List ChatChoice))
    (a b : Option String) (c : Option Int) (d : Option (List ChatChoice))
    (hs : ChatResponse.stepField k v id obj created choices = some (a, b, c, d)) :
    (¬ k = "id" → a = id) ∧ (¬ k = "object" → b = obj) ∧
    (¬ k = "created" → c = created) ∧ (¬ k = "choices" → d = choices) := by
  by_cases h1 : k = "id"
  · subst h1
    cases id with
    | some x => exact Option.noConfusion hs
    | none =>
      have hs2 : (match Json.asString v with
                  | none => none
                  | some s => some (some s, obj, created, choices)) = some (a, b, c, d) := hs
      cases hv : Json.asString v with
      | none => rw [hv] at hs2; exact Option.noConfusion hs2
      | some s =>
        rw [hv] at hs2
        have hs3 : some ((some s : Option String), obj, created, choices) =
            some (a, b, c, d) := hs2
        cases hs3
        exact ⟨fun h => absurd rfl h, fun _ => rfl, fun _ => rfl, fun _ => rfl⟩
  · by_cases h2 : k = "object"
    · subst h2
      cases obj with
      | some x => exact Option.noConfusion hs
      | none =>
        have hs2 : (match Json.asString v with
                    | none => none
                    | some s => some (id, some s, created, choices)) = some (a, b, c, d) := hs
        cases hv : Json.asString v with
        | none => rw [hv] at hs2; exact Option.noConfusion hs2
        | some s =>
          rw [hv] at hs2
          have hs3 : some (id, (some s : Option String), created, choices) =
              some (a, b, c, d) := hs2
          cases hs3
          exact ⟨fun _ => rfl, fun h => absurd rfl h, fun _ => rfl, fun _ => rfl⟩
    · by_cases h3 : k = "created"
      · subst h3
        cases created with
        | some x => exact Option.noConfusion hs
        | none =>
          have hs2 : (match Json.asInt v with
                      | none => none
                      | some n => some (id, obj, some n, choices)) = some (a, b, c, d) := hs
          cases hv : Json.asInt v with
          | none => rw [hv] at hs2; exact Option.noConfusion hs2
          | some n =>
            rw [hv] at hs2
            have hs3 : some (id, obj, (some n : Option Int), choices) =
                some (a, b, c, d) := hs2
            cases hs3
            exact ⟨fun _ => rfl, fun _ => rfl, fun h => absurd rfl h, fun _ => rfl⟩
      · by_cases h4 : k = "choices"
        · subst h4
          cases choices with
          | some x => exact Option.noConfusion hs
          | none =>
            have hs2 : (match Json.asChoices v with
                        | none => none
                        | some cs => some (id, obj, created, some cs)) = some (a, b, c, d) := hs
            cases hv : Json.asChoices v with
            | none => rw [hv] at hs2; exact Option.noConfusion hs2
            | some cs =>
              rw [hv] at hs2
              have hs3 : some (id, obj, created, (some cs : Option (List ChatChoice))) =
                  some (a, b, c, d) := hs2
              cases hs3
              exact ⟨fun _ => rfl, fun _ => rfl, fun _ => rfl, fun h => absurd rfl h⟩
        · have hstep : ChatResponse.stepField k v id obj created choices =
              some (id, obj, created, choices) := by
            simp only [ChatResponse.stepField, if_neg h1, if_neg h2, if_neg h3, if_neg h4]
          rw [hstep] at hs
          have hs3 : some (id, obj, created, choices) = some (a, b, c, d) := hs
          cases hs3
          exact ⟨fun _ => rfl, fun _ => rfl, fun _ => rfl, fun _ => rfl⟩

/-- Stepping a "choices" entry whose value does not deserialize as a
choices sequence is an error, whatever the accumulators hold. -/
lemma response_stepField_choices_bad (v : Json) (id obj : Option String)
    (created : Option Int) (choices : Option (List ChatChoice))
    (hv : Json.asChoices v = none) :
    ChatResponse.stepField "choices" v id obj created choices = none := by
  cases choices with
  | some x => rfl
  | none =>
    show (match Json.asChoices v with
          | none => none
          | some cs => some (id, obj, created, some cs)) = none
    rw [hv]

/-- A response object with no "id" entry never deserializes. -/
lemma response_missing_id :
    ∀ (fs : List (String × Json)) o c ch, (∀ v, ("id", v) ∉ fs) →
      ChatResponse.fromFields fs none o c ch = none := by
  intro fs
  induction fs with
  | nil => intro o c ch _; rfl
  | cons p rest ih =>
    obtain ⟨k, v⟩ := p
    intro o c ch habs
    have hk : ¬ k = "id" := fun h => habs v (h ▸ List.mem_cons_self _ _)
    have habs2 : ∀ w, ("id", w) ∉ rest := fun w hw => habs w (List.mem_cons_of_mem _ hw)
    show (match ChatResponse.stepField k v none o c ch with
          | none => none
          | some (a, b, c2, d) => ChatResponse.fromFields rest a b c2 d) = none
    cases hs : ChatResponse.stepField k v none o c ch with
    | none => rfl
    | some acc =>
      obtain ⟨a, b, c2, d⟩ := acc
      have ha : a = none := (response_stepField_preserve k v none o c ch a b c2 d hs).1 hk
      subst ha
      exact ih b c2 d habs2

/-- A response object with no "object" entry never deserializes. -/
lemma response_missing_object :
    ∀ (fs : List (String × Json)) i c ch, (∀ v, ("object", v) ∉ fs) →
      ChatResponse.fromFields fs i none c ch = none := by
  intro fs
  induction fs with
  | nil => intro i c ch _; cases i <;> rfl
  | cons p rest ih =>
    obtain ⟨k, v⟩ := p
    intro i c ch habs
    have hk : ¬ k = "object" := fun h => habs v (h ▸ List.mem_cons_self _ _)
    have habs2 : ∀ w, ("object", w) ∉ rest := fun w hw => habs w (List.mem_cons_of_mem _ hw)
    show (match ChatResponse.stepField k v i none c ch with
          | none => none
          | some (a, b, c2, d) => ChatResponse.fromFields rest a b c2 d) = none
    cases hs : ChatResponse.stepField k v i none c ch with
    | none => rfl
    | some acc =>
      obtain ⟨a, b, c2, d⟩ := acc
      have hb : b = none := (response_stepField_preserve k v i none c ch a b c2 d hs).2.1 hk
      subst hb
      exact ih a c2 d habs2

/-- A response object with no "created" entry never deserializes. -/
lemma response_missing_created :
    ∀ (fs : List (String × Json)) i o ch, (∀ v, ("created", v) ∉ fs) →
      ChatResponse.fromFields fs i o none ch = none := by
  intro fs
  induction fs with
  | nil => intro i o ch _; cases i <;> cases o <;> rfl
  | cons p rest ih =>
    obtain ⟨k, v⟩ := p
    intro i o ch habs
    have hk : ¬ k = "created" := fun h => habs v (h ▸ List.mem_cons_self _ _)
    have habs2 : ∀ w, ("created", w) ∉ rest := fun w hw => habs w (List.mem_cons_of_mem _ hw)
    show (match ChatResponse.stepField k v i o none ch with
          | none => none
          | some (a, b, c2, d) => ChatResponse.fromFields rest a b c2 d) = none
    cases hs : ChatResponse.stepField k v i o none ch with
    | none => rfl
    | some acc =>
      obtain ⟨a, b, c2, d⟩ := acc
      have hc : c2 = none := (response_stepField_preserve k v i o none ch a b c2 d hs).2.2.1 hk
      subst hc
      exact ih a b d habs2

/-- A response object with no "choices" entry never deserializes. -/
lemma response_missing_choices :
    ∀ (fs : List (String × Json)) i o c, (∀ v, ("choices", v) ∉ fs) →
      ChatResponse.fromFields fs i o c none = none := by
  intro fs
  induction fs with
  | nil => intro i o c _; cases i <;> cases o <;> cases c <;> rfl
  | cons p rest ih =>
    obtain ⟨k, v⟩ := p
    intro i o c habs
    have hk : ¬ k = "choices" := fun h => habs v (h ▸ List.mem_cons_self _ _)
    have habs2 : ∀ w, ("choices", w) ∉ rest := fun w hw => habs w (List.mem_cons_of_mem _ hw)
    show (match ChatResponse.stepField k v i o c none with
          | none => none
          | some (a, b, c2, d) => ChatResponse.fromFields rest a b c2 d) = none
    cases hs : ChatResponse.stepField k v i o c none with
    | none => rfl
    | some acc =>
      obtain ⟨a, b, c2, d⟩ := acc
      have hd : d = none := (response_stepField_preserve k v i o c none a b c2 d hs).2.2.2 hk
      subst hd
      exact ih a b c2 habs2

/-- A response object carrying a "choices" entry whose value fails to
deserialize as a choices sequence never deserializes. -/
lemma response_fromFields_choices_bad :
    ∀ (fs : List (String × Json)) id obj created choices v,
      ("choices", v) ∈ fs → Json.asChoices v = none →
      ChatResponse.fromFields fs id obj created choices = none := by
  intro fs
  induction fs with
  | nil => intro id obj created choices v hv _; exact absurd hv (List.not_mem_nil _)
  | cons p rest ih =>
    obtain ⟨k, w⟩ := p
    intro id obj created choices v hmem hbad
    show (match ChatResponse.stepField k w id obj created choices with
          | none => none
          | some (a, b, c2, d) => ChatResponse.fromFields rest a b c2 d) = none
    rcases List.mem_cons.mp hmem with heq | hrest
    · have hk : "choices" = k := congrArg Prod.fst heq
      have hw : v = w := congrArg Prod.snd heq
      subst hk
      subst hw
      rw [response_stepField_choices_bad _ id obj created choices hbad]
    · cases hs : ChatResponse.stepField k w id obj created choices with
      | none => rfl
      | some acc =>
        obtain ⟨a, b, c2, d⟩ := acc
        exact ih a b c2 d v hrest hbad

/-- Entries on unknown keys are skipped: once every required field is
present, any tail of unrecognized entries still deserializes. -/
lemma response_fromFields_skip :
    ∀ (fs : List (String × Json)) i o c ch,
      (∀ p ∈ fs, p.1 ≠ "id" ∧ p.1 ≠ "object" ∧ p.1 ≠ "created" ∧ p.1 ≠ "choices") →
      ChatResponse.fromFields fs (some i) (some o) (some c) (some ch) =
        some ⟨i, o, c, ch⟩ := by
  intro fs
  induction fs with
  | nil => intro i o c ch _; rfl
  | cons p rest ih =>
    obtain ⟨k, v⟩ := p
    intro i o c ch hall
    obtain ⟨h1, h2, h3, h4⟩ := hall (k, v) (List.mem_cons_self _ _)
    have h1k : ¬ k = "id" := h1
    have h2k : ¬ k = "object" := h2
    have h3k : ¬ k = "created" := h3
    have h4k : ¬ k = "choices" := h4
    show (match ChatResponse.stepField k v (some i) (some o) (some c) (some ch) with
          | none => none
          | some (a, b, c2, d) => ChatResponse.fromFields rest a b c2 d) =
        some ⟨i, o, c, ch⟩
    have hstep : ChatResponse.stepField k v (some i) (some o) (some c) (some ch) =
        some (some i, some o, some c, some ch) := by
      simp only [ChatResponse.stepField, if_neg h1k, if_neg h2k, if_neg h3k, if_neg h4k]
    rw [hstep]
    exact ih i o c ch (fun q hq => hall q (List.mem_cons_of_mem _ hq))

/-- A response body carrying the four required fields first (in wire
order) followed by arbitrary unrecognized entries deserializes to the
corresponding `ChatResponse`. -/
lemma response_fromJson_required_first (i o : String) (cr : Int) (l : List Json) (cs : List ChatChoice)
    (extras : List (String × Json)) (hcr : Json.asInt (Json.num cr) = some cr)
    (hl : decodeChoices l = some cs)
    (hextras : ∀ p ∈ extras, p.1 ≠ "id" ∧ p.1 ≠ "object" ∧ p.1 ≠ "created" ∧ p.1 ≠ "choices") :
    ChatResponse.fromJson (Json.obj (("id", Json.str i) :: ("object", Json.str o) ::
      ("created", Json.num cr) :: ("choices", Json.arr l) :: extras)) =
      some ⟨i, o, cr, cs⟩ := by
  have hstep_cr : ChatResponse.stepField "created" (Json.num cr) (some i) (some o) none none =
      some (some i, some o, some cr, none) := by
    show (match Json.asInt (Json.num cr) with
          | none => none
          | some n => some (some i, some o, some n, none)) = some (some i, some o, some cr, none)
    rw [hcr]
  have hstep_ch : ChatResponse.stepField "choices" (Json.arr l) (some i) (some o) (some cr) none =
      some (some i, some o, some cr, some cs) := by
    show (match decodeChoices l with
          | none => none
          | some cs2 => some (some i, some o, some cr, some cs2)) =
        some (some i, some o, some cr, some cs)
    rw [hl]
  show (match ChatResponse.stepField "created" (Json.num cr) (some i) (some o) none none with
        | none => none
        | some (a, b, c2, d) =>
          ChatResponse.fromFields (("choices", Json.arr l) :: extras) a b c2 d) =
      some ⟨i, o, cr, cs⟩
  rw [hstep_cr]
  show (match ChatResponse.stepField "choices" (Json.arr l) (some i) (some o) (some cr) none with
        | none => none
        | some (a, b, c2, d) => ChatResponse.fromFields extras a b c2 d) =
      some ⟨i, o, cr, cs⟩
  rw [hstep_ch]
  exact response_fromFields_skip extras i o cr cs hextras

/-- The entries of a field list carrying a given key. -/
def keyFilter (key : String) (fs : List (String × Json)) : List (String × Json) :=
  fs.filter (fun p => p.1 = key)

/-- `keyFilter` on a cons keeps the head exactly when its key matches. -/
lemma keyFilter_cons (key k : String) (v : Json) (rest : List (String × Json)) :
    keyFilter key ((k, v) :: rest) =
      if k = key then (k, v) :: keyFilter key rest else keyFilter key rest := by
  by_cases h : k = key <;> simp [keyFilter, List.filter_cons, h]

/-- The visitor accepts the required fields in any position: each of
the four required keys occurs exactly once with a well-typed value
(already consumed into its accumulator, or still ahead), every other
entry has an unrecognized key and is skipped, and the decode result is
assembled from the four values. -/
lemma response_fromFields_any_order :
    ∀ (fs : List (String × Json)) (i o : String) (cr : Int) (cs : List ChatChoice)
      (ia ob : Option String) (ca : Option Int) (cha : Option (List ChatChoice)),
      ((ia = none ∧ keyFilter "id" fs = [("id", Json.str i)]) ∨
        (ia = some i ∧ keyFilter "id" fs = [])) →
      ((ob = none ∧ keyFilter "object" fs = [("object", Json.str o)]) ∨
        (ob = some o ∧ keyFilter "object" fs = [])) →
      ((ca = none ∧ keyFilter "created" fs = [("created", Json.num cr)] ∧
          Json.asInt (Json.num cr) = some cr) ∨
        (ca = some cr ∧ keyFilter "created" fs = [])) →
      ((cha = none ∧ ∃ l, keyFilter "choices" fs = [("choices", Json.arr l)] ∧
          decodeChoices l = some cs) ∨
        (cha = some cs ∧ keyFilter "choices" fs = [])) →
      ChatResponse.fromFields fs ia ob ca cha = some ⟨i, o, cr, cs⟩ := by
  intro fs
  induction fs with
  | nil =>
    intro i o cr cs ia ob ca cha h1 h2 h3 h4
    rcases h1 with ⟨_, hf⟩ | ⟨ha1, _⟩
    · exact List.noConfusion hf
    rcases h2 with ⟨_, hf⟩ | ⟨ha2, _⟩
    · exact List.noConfusion hf
    rcases h3 with ⟨_, hf, _⟩ | ⟨ha3, _⟩
    · exact List.noConfusion hf
    rcases h4 with ⟨_, l, hf, _⟩ | ⟨ha4, _⟩
    · exact List.noConfusion hf
    subst ha1
    subst ha2
    subst ha3
    subst ha4
    rfl
  | cons p rest ih =>
    obtain ⟨k, v⟩ := p
    intro i o cr cs ia ob ca cha h1 h2 h3 h4
    by_cases hk1 : k = "id"
    · subst hk1
      rw [keyFilter_cons, if_pos rfl] at h1
      rw [keyFilter_cons, if_neg (show ¬ ("id" : String) = "object" by decide)] at h2
      rw [keyFilter_cons, if_neg (show ¬ ("id" : String) = "created" by decide)] at h3
      rw [keyFilter_cons, if_neg (show ¬ ("id" : String) = "choices" by decide)] at h4
      rcases h1 with ⟨ha, hf⟩ | ⟨_, hf⟩
      · subst ha
        injection hf with hv hrest
        have hv2 : v = Json.str i := congrArg Prod.snd hv
        subst hv2
        show (match ChatResponse.stepField "id" (Json.str i) none ob ca cha with
              | none => none
              | some (a, b, c2, d) => ChatResponse.fromFields rest a b c2 d) =
            some ⟨i, o, cr, cs⟩
        have hstep : ChatResponse.stepField "id" (Json.str i) none ob ca cha =
            some (some i, ob, ca, cha) := rfl
        rw [hstep]
        exact ih i o cr cs (some i) ob ca cha (Or.inr ⟨rfl, hrest⟩) h2 h3 h4
      · exact List.noConfusion hf
    · by_cases hk2 : k = "object"
      · subst hk2
        rw [keyFilter_cons, if_neg (show ¬ ("object" : String) = "id" by decide)] at h1
        rw [keyFilter_cons, if_pos rfl] at h2
        rw [keyFilter_cons, if_neg (show ¬ ("object" : String) = "created" by decide)] at h3
        rw [keyFilter_cons, if_neg (show ¬ ("object" : String) = "choices" by decide)] at h4
        rcases h2 with ⟨ha, hf⟩ | ⟨_, hf⟩
        · subst ha
          injection hf with hv hrest
          have hv2 : v = Json.str o := congrArg Prod.snd hv
          subst hv2
          show (match ChatResponse.stepField "object" (Json.str o) ia none ca cha with
                | none => none
                | some (a, b, c2, d) => ChatResponse.fromFields rest a b c2 d) =
              some ⟨i, o, cr, cs⟩
          have hstep : ChatResponse.stepField "object" (Json.str o) ia none ca cha =
              some (ia, some o, ca, cha) := rfl
          rw [hstep]
          exact ih i o cr cs ia (some o) ca cha h1 (Or.inr ⟨rfl, hrest⟩) h3 h4
        · exact List.noConfusion hf
      · by_cases hk3 : k = "created"
        · subst hk3
          rw [keyFilter_cons, if_neg (show ¬ ("created" : String) = "id" by decide)] at h1
          rw [keyFilter_cons, if_neg (show ¬ ("created" : String) = "object" by decide)] at h2
          rw [keyFilter_cons, if_pos rfl] at h3
          rw [keyFilter_cons, if_neg (show ¬ ("created" : String) = "choices" by decide)] at h4
          rcases h3 with ⟨ha, hf, hint⟩ | ⟨_, hf⟩
          · subst ha
            injection hf with hv hrest
            have hv2 : v = Json.num cr := congrArg Prod.snd hv
            subst hv2
            show (match ChatResponse.stepField "created" (Json.num cr) ia ob none cha with
                  | none => none
                  | some (a, b, c2, d) => ChatResponse.fromFields rest a b c2 d) =
                some ⟨i, o, cr, cs⟩
            have hstep : ChatResponse.stepField "created" (Json.num cr) ia ob none cha =
                some (ia, ob, some cr, cha) := by
              show (match Json.asInt (Json.num cr) with
                    | none => none
                    | some n => some (ia, ob, some n, cha)) = some (ia, ob, some cr, cha)
              rw [hint]
            rw [hstep]
            exact ih i o cr cs ia ob (some cr) cha h1 h2 (Or.inr ⟨rfl, hrest⟩) h4
          · exact List.noConfusion hf
        · by_cases hk4 : k = "choices"
          · subst hk4
            rw [keyFilter_cons, if_neg (show ¬ ("choices" : String) = "id" by decide)] at h1
            rw [keyFilter_cons, if_neg (show ¬ ("choices" : String) = "object" by decide)] at h2
            rw [keyFilter_cons, if_neg (show ¬ ("choices" : String) = "created" by decide)] at h3
            rw [keyFilter_cons, if_pos rfl] at h4
            rcases h4 with ⟨ha, l, hf, hdec⟩ | ⟨_, hf⟩
            · subst ha
              injection hf with hv hrest
              have hv2 : v = Json.arr l := congrArg Prod.snd hv
              subst hv2
              show (match ChatResponse.stepField "choices" (Json.arr l) ia ob ca none with
                    | none => none
                    | some (a, b, c2, d) => ChatResponse.fromFields rest a b c2 d) =
                  some ⟨i, o, cr, cs⟩
              have hac : Json.asChoices (Json.arr l) = some cs := hdec
              have hstep : ChatResponse.stepField "choices" (Json.arr l) ia ob ca none =
                  some (ia, ob, ca, some cs) := by
                show (match Json.asChoices (Json.arr l) with
                      | none => none
                      | some cs2 => some (ia, ob, ca, some cs2)) = some (ia, ob, ca, some cs)
                rw [hac]
              rw [hstep]
              exact ih i o cr cs ia ob ca (some cs) h1 h2 h3 (Or.inr ⟨rfl, hrest⟩)
            · exact List.noConfusion hf
          · rw [keyFilter_cons, if_neg hk1] at h1
            rw [keyFilter_cons, if_neg hk2] at h2
            rw [keyFilter_cons, if_neg hk3] at h3
            rw [keyFilter_cons, if_neg hk4] at h4
            show (match ChatResponse.stepField k v ia ob ca cha with
                  | none => none
                  | some (a, b, c2, d) => ChatResponse.fromFields rest a b c2 d) =
                some ⟨i, o, cr, cs⟩
            have hstep : ChatResponse.stepField k v ia ob ca cha = some (ia, ob, ca, cha) := by
              simp only [ChatResponse.stepField, if_neg hk1, if_neg hk2, if_neg hk3, if_neg hk4]
            rw [hstep]
            exact ih i o cr cs ia ob ca cha h1 h2 h3 h4

/-! ## Claim theorems -/

/-- C1: with a valid token in the environment and an endpoint answering
with a well-formed completion JSON body (its integer fields in the
`i64` range, as decodability requires), `request_chat` returns the
parsed `ChatResponse`, and its first choice's message content equals
the content value carried in that body. -/
theorem c1_success_content :
    ∀ env t key s i o cr idx role content fin rest cs,
      env "GPT_API_KEY" = some key →
      -(2 ^ 63) ≤ idx ∧ idx < 2 ^ 63 →
      -(2 ^ 63) ≤ cr ∧ cr < 2 ^ 63 →
      decodeChoices rest = some cs →
      t (built_request key) = HttpResult.response s (some (Json.obj
        [("id", Json.str i), ("object", Json.str o), ("created", Json.num cr),
         ("choices", Json.arr (Json.obj
           [("index", Json.num idx),
            ("message", Json.obj [("role", Json.str role), ("content", Json.str content)]),
            ("finish_reason", Json.str fin)] :: rest))])) →
      ∃ r, (request_chat env t).1 = Except.ok r ∧
        (r.choices.map fun c => c.message.content).head? = some content := by
  intro env t key s i o cr idx role content fin rest cs henv hidx hcr hrest ht
  have hidx2 : Json.asInt (Json.num idx) = some idx := by
    show (if -(2 ^ 63) ≤ idx ∧ idx < 2 ^ 63 then some idx else none) = some idx
    rw [if_pos hidx]
  have hcr2 : Json.asInt (Json.num cr) = some cr := by
    show (if -(2 ^ 63) ≤ cr ∧ cr < 2 ^ 63 then some cr else none) = some cr
    rw [if_pos hcr]
  have hj := response_fromJson_required_first i o cr
    (Json.obj
      [("index", Json.num idx),
       ("message", Json.obj [("role", Json.str role), ("content", Json.str content)]),
       ("finish_reason", Json.str fin)] :: rest)
    (⟨idx, ⟨role, content⟩, fin⟩ :: cs) [] hcr2
    (decodeChoices_cons_obj idx role content fin rest cs hidx2 hrest)
    (fun p hp => absurd hp (List.not_mem_nil p))
  exact ⟨_, request_chat_ok env t key s _ _ henv ht hj, rfl⟩

/-- C1 witness: a concrete mocked body with content value "Hi". -/
theorem c1_witness :
    decodeChoices [] = some [] ∧
    ∃ r, (request_chat (fun _ => some "k") (mock (HttpResult.response 200 (some (Json.obj
      [("id", Json.str "x"), ("object", Json.str "chat.completion"), ("created", Json.num 5),
       ("choices", Json.arr [Json.obj
         [("index", Json.num 0),
          ("message", Json.obj [("role", Json.str "assistant"), ("content", Json.str "Hi")]),
          ("finish_reason", Json.str "stop")]])]))))).1 = Except.ok r ∧
      (r.choices.map fun c => c.message.content).head? = some "Hi" :=
  ⟨rfl, c1_success_content (fun _ => some "k") _ "k" 200 "x" "chat.completion" 5 0 "assistant"
    "Hi" "stop" [] [] rfl (by decide) (by decide) rfl rfl⟩

/-- C2: every invocation builds the fixed `ChatRequest` (model
"gpt-3.5-turbo", single user message "Hello"), its JSON serialization
is exactly the expected byte string, and every request handed to the
transport carries exactly that serialization as its body. -/
theorem c2_fixed_request_serialization :
    chat_req.model = "gpt-3.5-turbo" ∧
    chat_req.messages = [{ role := "user", content := "Hello" }] ∧
    Json.render (ChatRequest.toJson chat_req) =
      "\x7b\"model\":\"gpt-3.5-turbo\",\"messages\":[\x7b\"role\":\"user\",\"content\":\"Hello\"\x7d]\x7d" ∧
    ∀ env t key req, env "GPT_API_KEY" = some key → req ∈ (request_chat env t).2 →
      req.body = Json.render (ChatRequest.toJson chat_req) := by
  refine ⟨rfl, rfl, by decide, ?_⟩
  intro env t key req h hmem
  rw [request_chat_issued env t key h] at hmem
  have := List.mem_singleton.mp hmem
  subst this
  rfl

/-- C2 witness: the request issued for token "k" carries the fixed
serialized body. -/
theorem c2_witness :
    (built_request "k").body = Json.render (ChatRequest.toJson chat_req) :=
  c2_fixed_request_serialization.2.2.2 (fun _ => some "k") (mock HttpResult.failure) "k"
    (built_request "k") rfl
    (by rw [request_chat_issued _ _ "k" rfl]; exact List.mem_singleton.mpr rfl)

/-- C3: with `GPT_API_KEY` absent from the environment, `request_chat`
fails with `ConfigError` and the list of requests handed to the
transport is empty, whatever the transport would have answered: the
failure occurs strictly before any send. -/
theorem c3_missing_token :
    ∀ env t, env "GPT_API_KEY" = none →
      request_chat env t = (Except.error ChatError.ConfigError, []) := by
  intro env t h
  simp [request_chat, h]

/-- C3 witness: the empty environment against an unreachable mock. -/
theorem c3_witness :
    request_chat (fun _ => none) (mock HttpResult.failure) =
      (Except.error ChatError.ConfigError, []) :=
  c3_missing_token _ _ rfl

/-- C4: a response body that is not JSON at all, or is JSON that does
not match the `ChatResponse` shape, makes `request_chat` fail with
`DecodeError` (so it does not return a `ChatResponse`). -/
theorem c4_decode_error :
    ∀ env t key s, env "GPT_API_KEY" = some key →
      (t (built_request key) = HttpResult.response s none →
        (request_chat env t).1 = Except.error ChatError.DecodeError) ∧
      (∀ j, ChatResponse.fromJson j = none →
        t (built_request key) = HttpResult.response s (some j) →
        (request_chat env t).1 = Except.error ChatError.DecodeError) := by
  intro env t key s h
  exact ⟨fun ht => request_chat_nonjson env t key s h ht,
         fun j hj ht => request_chat_decode env t key s j h ht hj⟩

/-- C4 witness: a non-JSON body and a shape-mismatched JSON body both
yield `DecodeError`. -/
theorem c4_witness :
    (request_chat (fun _ => some "k") (mock (HttpResult.response 200 none))).1 =
      Except.error ChatError.DecodeError ∧
    (request_chat (fun _ => some "k") (mock (HttpResult.response 200 (some (Json.str "oops"))))).1 =
      Except.error ChatError.DecodeError :=
  ⟨(c4_decode_error (fun _ => some "k") _ "k" 200 rfl).1 rfl,
   (c4_decode_error (fun _ => some "k") _ "k" 200 rfl).2 (Json.str "oops") rfl rfl⟩

/-- C5: when the transport cannot deliver the request (connection
refused, timeout: the `send()` error arm), `request_chat` fails with
`NetworkError` and no other error kind. -/
theorem c5_network_error :
    ∀ env t key, env "GPT_API_KEY" = some key →
      t (built_request key) = HttpResult.failure →
      (request_chat env t).1 = Except.error ChatError.NetworkError :=
  fun env t key h ht => request_chat_net_fail env t key h ht

/-- C5 witness: the everywhere-unreachable mock transport. -/
theorem c5_witness :
    (request_chat (fun _ => some "k") (mock HttpResult.failure)).1 =
      Except.error ChatError.NetworkError :=
  c5_network_error _ _ "k" rfl rfl

/-- C6: `request_chat` never inspects the HTTP status code before
decoding: the outcome is identical for any two statuses over the same
body, and a non-2xx response whose JSON body does not match the
`ChatResponse` shape is reported as `DecodeError`. -/
theorem c6_status_never_inspected :
    (∀ env s₁ s₂ b, request_chat env (mock (HttpResult.response s₁ b)) =
        request_chat env (mock (HttpResult.response s₂ b))) ∧
    (∀ env key s j, env "GPT_API_KEY" = some key → ¬ (200 ≤ s ∧ s ≤ 299) →
        ChatResponse.fromJson j = none →
        (request_chat env (mock (HttpResult.response s (some j)))).1 =
          Except.error ChatError.DecodeError) := by
  constructor
  · intro env s₁ s₂ b
    cases h : env "GPT_API_KEY" <;> simp [request_chat, mock, h]
  · intro env key s j h _hs hj
    exact request_chat_decode env _ key s j h rfl hj

/-- C6 witness: a 404 with a shape-mismatched JSON body decodes to
`DecodeError`. -/
theorem c6_witness :
    ¬ (200 ≤ 404 ∧ 404 ≤ 299) ∧
    (request_chat (fun _ => some "k") (mock (HttpResult.response 404 (some Json.null)))).1 =
      Except.error ChatError.DecodeError :=
  ⟨by decide, c6_status_never_inspected.2 _ "k" 404 Json.null rfl (by decide) rfl⟩

/-- C7: every request handed to the transport is a POST to the
chat-completions URL carrying `Authorization: Bearer <t>` where `<t>`
is exactly the value of `GPT_API_KEY`. -/
theorem c7_request_shape :
    ∀ env t key req, env "GPT_API_KEY" = some key → req ∈ (request_chat env t).2 →
      req.method = "POST" ∧
      req.url = "https://api.openai.com/v1/chat/completions" ∧
      req.authorization = some ("Bearer " ++ key) := by
  intro env t key req h hmem
  rw [request_chat_issued env t key h] at hmem
  have := List.mem_singleton.mp hmem
  subst this
  exact ⟨rfl, rfl, rfl⟩

/-- C7 witness: the request issued for token "tok". -/
theorem c7_witness :
    (built_request "tok").method = "POST" ∧
    (built_request "tok").url = "https://api.openai.com/v1/chat/completions" ∧
    (built_request "tok").authorization = some ("Bearer " ++ "tok") :=
  c7_request_shape (fun _ => some "tok") (mock HttpResult.failure) "tok" (built_request "tok") rfl
    (by rw [request_chat_issued _ _ "tok" rfl]; exact List.mem_singleton.mpr rfl)

/-- C8: serializing a `ChatRequest` and deserializing it back yields
a structurally identical `ChatRequest` (field-for-field equality,
message sequence included). -/
theorem c8_chatrequest_roundtrip :
    ∀ r : ChatRequest, ChatRequest.fromJson (ChatRequest.toJson r) = some r :=
  chatRequest_roundtrip

/-- C9: the serialized request body does not depend on the token: for
any two environments both carrying a `GPT_API_KEY`, the issued bodies
are byte-identical (method and URL too); only the Authorization header
can differ. -/
theorem c9_body_token_independent :
    ∀ k₁ k₂ env₁ env₂ t,
      (built_request k₁).body = (built_request k₂).body ∧
      (built_request k₁).method = (built_request k₂).method ∧
      (built_request k₁).url = (built_request k₂).url ∧
      (env₁ "GPT_API_KEY" = some k₁ → env₂ "GPT_API_KEY" = some k₂ →
        (request_chat env₁ t).2.map HttpRequest.body =
          (request_chat env₂ t).2.map HttpRequest.body) := by
  intro k₁ k₂ env₁ env₂ t
  refine ⟨rfl, rfl, rfl, ?_⟩
  intro h₁ h₂
  rw [request_chat_issued env₁ t k₁ h₁, request_chat_issued env₂ t k₂ h₂]
  rfl

/-- C10: response decoding is strict on required fields but tolerant
of extras: a body object missing any of "id", "object", "created" or
"choices", or whose choices array contains a choice object missing
"index", "message" or "finish_reason", makes `request_chat` fail with
`DecodeError`, while a body carrying all required fields, each exactly
once with a well-typed value (its integer in the `i64` range) in any
position, plus arbitrary unrecognized extra fields anywhere, decodes
successfully. -/
theorem c10_strict_required_tolerant_extras :
    (∀ env t key s fs, env "GPT_API_KEY" = some key →
      t (built_request key) = HttpResult.response s (some (Json.obj fs)) →
      ((∀ v, ("id", v) ∉ fs) ∨ (∀ v, ("object", v) ∉ fs) ∨
       (∀ v, ("created", v) ∉ fs) ∨ (∀ v, ("choices", v) ∉ fs)) →
      (request_chat env t).1 = Except.error ChatError.DecodeError) ∧
    (∀ env t key s fs l cfs, env "GPT_API_KEY" = some key →
      t (built_request key) = HttpResult.response s (some (Json.obj fs)) →
      ("choices", Json.arr l) ∈ fs → Json.obj cfs ∈ l →
      ((∀ v, ("index", v) ∉ cfs) ∨ (∀ v, ("message", v) ∉ cfs) ∨
       (∀ v, ("finish_reason", v) ∉ cfs)) →
      (request_chat env t).1 = Except.error ChatError.DecodeError) ∧
    (∀ env t key s fs i o cr cs, env "GPT_API_KEY" = some key →
      keyFilter "id" fs = [("id", Json.str i)] →
      keyFilter "object" fs = [("object", Json.str o)] →
      keyFilter "created" fs = [("created", Json.num cr)] →
      -(2 ^ 63) ≤ cr ∧ cr < 2 ^ 63 →
      (∃ l, keyFilter "choices" fs = [("choices", Json.arr l)] ∧ decodeChoices l = some cs) →
      t (built_request key) = HttpResult.response s (some (Json.obj fs)) →
      (request_chat env t).1 = Except.ok ⟨i, o, cr, cs⟩) := by
  refine ⟨?_, ?_, ?_⟩
  · intro env t key s fs henv ht hmiss
    have hj : ChatResponse.fromJson (Json.obj fs) = none := by
      rcases hmiss with h | h | h | h
      · exact response_missing_id fs none none none h
      · exact response_missing_object fs none none none h
      · exact response_missing_created fs none none none h
      · exact response_missing_choices fs none none none h
    exact request_chat_decode env t key s _ henv ht hj
  · intro env t key s fs l cfs henv ht hmemf hmeml hmiss
    have hcj : ChatChoice.fromJson (Json.obj cfs) = none := by
      rcases hmiss with h | h | h
      · exact choice_missing_index cfs none none h
      · exact choice_missing_message cfs none none h
      · exact choice_missing_finish cfs none none h
    have hac : Json.asChoices (Json.arr l) = none :=
      decodeChoices_elem_none l (Json.obj cfs) hmeml hcj
    have hj : ChatResponse.fromJson (Json.obj fs) = none :=
      response_fromFields_choices_bad fs none none none none (Json.arr l) hmemf hac
    exact request_chat_decode env t key s _ henv ht hj
  · intro env t key s fs i o cr cs henv hid hob hcrf hcrr hch ht
    have hint : Json.asInt (Json.num cr) = some cr := by
      show (if -(2 ^ 63) ≤ cr ∧ cr < 2 ^ 63 then some cr else none) = some cr
      rw [if_pos hcrr]
    obtain ⟨l, hchf, hdec⟩ := hch
    have hj : ChatResponse.fromJson (Json.obj fs) = some ⟨i, o, cr, cs⟩ :=
      response_fromFields_any_order fs i o cr cs none none none none
        (Or.inl ⟨rfl, hid⟩) (Or.inl ⟨rfl, hob⟩) (Or.inl ⟨rfl, hcrf, hint⟩)
        (Or.inl ⟨rfl, l, hchf, hdec⟩)
    exact request_chat_ok env t key s _ _ henv ht hj

/-- C10 witness: a body missing "id" and a body whose only choice is
missing "index" both yield `DecodeError`; a body with all required
fields out of wire order, interleaved with extra "usage" and "banana"
fields, decodes. -/
theorem c10_witness :
    (request_chat (fun _ => some "k") (mock (HttpResult.response 200 (some (Json.obj
      [("object", Json.str "x")]))))).1 = Except.error ChatError.DecodeError ∧
    (request_chat (fun _ => some "k") (mock (HttpResult.response 200 (some (Json.obj
      [("choices", Json.arr [Json.obj []])]))))).1 = Except.error ChatError.DecodeError ∧
    (request_chat (fun _ => some "k") (mock (HttpResult.response 200 (some (Json.obj
      [("usage", Json.num 7), ("created", Json.num 5), ("id", Json.str "x"),
       ("banana", Json.null), ("choices", Json.arr []),
       ("object", Json.str "chat.completion")]))))).1 =
      Except.ok ⟨"x", "chat.completion", 5, []⟩ := by
  refine ⟨?_, ?_, ?_⟩
  · exact c10_strict_required_tolerant_extras.1 (fun _ => some "k") _ "k" 200 _ rfl rfl
      (Or.inl (fun v h =>
        absurd (show ("id" : String) = "object" from
          congrArg Prod.fst (List.mem_singleton.mp h)) (by decide)))
  · exact c10_strict_required_tolerant_extras.2.1 (fun _ => some "k") _ "k" 200 _
      [Json.obj []] [] rfl rfl (List.mem_singleton.mpr rfl) (List.mem_singleton.mpr rfl)
      (Or.inl (fun v h => absurd h (List.not_mem_nil _)))
  · exact c10_strict_required_tolerant_extras.2.2 (fun _ => some "k") _ "k" 200
      [("usage", Json.num 7), ("created", Json.num 5), ("id", Json.str "x"),
       ("banana", Json.null), ("choices", Json.arr []),
       ("object", Json.str "chat.completion")]
      "x" "chat.completion" 5 [] rfl rfl rfl rfl (by decide) ⟨[], rfl, rfl⟩ rfl

/-- C9 witness: two environments with tokens "a" and "b" issue
byte-identical bodies. -/
theorem c9_witness :
    (request_chat (fun _ => some "a") (mock HttpResult.failure)).2.map HttpRequest.body =
      (request_chat (fun _ => some "b") (mock HttpResult.failure)).2.map HttpRequest.body :=
  (c9_body_token_independent "a" "b" (fun _ => some "a") (fun _ => some "b")
    (mock HttpResult.failure)).2.2.2 rfl rfl

end Kitt
